import Mathlib

/-!
Verification of the `DestinationsPlugin` picker from
`src/Modified/step5A_chat_completion_agent_plugin_with_kernel.py`.

The Python class holds a hardcoded list of ten vacation destinations
(`self.destinations`, lines 39-50) and a mutable field
`self.last_destination` (initialised to `None`, line 52).  The single
method `get_random_destination` (lines 56-67) copies the catalog,
removes the last destination when `self.last_destination` is truthy and
the copy has more than one element, draws `random.choice` from the
remaining list, records the draw in `self.last_destination` and returns
it.

The randomness of `random.choice` is modelled by an index oracle: the
caller supplies the index `i` that `random.choice` would draw; a draw
from a list `l` is `l[i]?`, which is `some` exactly for `i` in range.
Python's exceptions (`ValueError` from `list.remove` on a missing
element, `IndexError` from `random.choice` on an empty sequence) are
modelled as `none` results.
-/

/-- Python truthiness of an `Optional[str]`: `None` and the empty string
are falsy, every other string is truthy.  This models the test
`if self.last_destination` on line 58 of the source. -/
def truthy : Option String → Bool
  | none => false
  | some s => s ≠ ""

/-- The state of the Python object `DestinationsPlugin`: the catalog
list `self.destinations` and the mutable field `self.last_destination`
(`None` modelled as `none`). -/
structure DestinationsPlugin where
  destinations : List String
  last_destination : Option String
deriving DecidableEq, Repr

/-- The hardcoded catalog assigned to `self.destinations` in
`DestinationsPlugin.__init__` (source lines 39-50). -/
def initialDestinations : List String :=
  ["Barcelona, Spain",
   "Paris, France",
   "Berlin, Germany",
   "Tokyo, Japan",
   "Sydney, Australia",
   "New York, USA",
   "Cairo, Egypt",
   "Cape Town, South Africa",
   "Rio de Janeiro, Brazil",
   "Bali, Indonesia"]

/-- `DestinationsPlugin.__init__` (source lines 37-52): a parameterless
constructor that unconditionally sets `self.destinations` to the fixed
ten-element list and `self.last_destination` to `None`.  It contains no
`raise` statement and takes no catalog argument, so it is a plain total
value. -/
def DestinationsPlugin.init : DestinationsPlugin :=
  { destinations := initialDestinations, last_destination := none }

/-- Lines 57-59 of `get_random_destination`: start from a copy of
`self.destinations`; if `self.last_destination` is truthy and the copy
has more than one element, `list.remove` the last destination (removing
the first occurrence; a `ValueError` — the element being absent — is
modelled as `none`).  Otherwise the copy is left as the full catalog. -/
def DestinationsPlugin.available (p : DestinationsPlugin) : Option (List String) :=
  match p.last_destination with
  | none => some p.destinations
  | some last =>
    if last ≠ "" ∧ p.destinations.length > 1 then
      if last ∈ p.destinations then some (p.destinations.erase last)
      else none
    else some p.destinations

/-- `DestinationsPlugin.get_random_destination` (source lines 56-67),
with the `random.choice` draw replaced by the index oracle `i`: compute
the available list, draw element `i` from it (out-of-range, which
includes `random.choice`'s `IndexError` on an empty sequence, is
`none`), store the draw in `self.last_destination` and return it
together with the updated object state. -/
def DestinationsPlugin.get_random_destination (p : DestinationsPlugin) (i : Nat) :
    Option (String × DestinationsPlugin) :=
  match p.available with
  | none => none
  | some avail =>
    match avail[i]? with
    | none => none
    | some destination => some (destination, { p with last_destination := some destination })

/-- The eligible set exactly as the spec words it: "catalog minus
`{last_destination}` if `last_destination` is set AND catalog size > 1;
otherwise eligible set = full catalog".  ("Set" here is a not-`None`
test, in contrast to the source's truthiness test.)  This definition
follows the spec, not the source, and exists to be compared with
`DestinationsPlugin.available`. -/
def specEligible (p : DestinationsPlugin) : List String :=
  match p.last_destination with
  | none => p.destinations
  | some last =>
    if p.destinations.length > 1 then p.destinations.erase last
    else p.destinations

/-- The states of a `DestinationsPlugin` object reachable in the
program: the freshly constructed object, and any state obtained from a
reachable state by a successful `get_random_destination` call (for any
outcome of the random draw). -/
inductive Reachable : DestinationsPlugin → Prop
  | base : Reachable DestinationsPlugin.init
  | step (p : DestinationsPlugin) (i : Nat) (d : String) (p' : DestinationsPlugin) :
      Reachable p → p.get_random_destination i = some (d, p') → Reachable p'

/-- Workhorse: a successful pick draws its result from the available
list at the drawn index, and the post-state keeps the catalog and
records the result in `last_destination`. -/
theorem pick_characterisation (p : DestinationsPlugin) (i : Nat) (d : String)
    (p' : DestinationsPlugin) (h : p.get_random_destination i = some (d, p')) :
    ∃ avail, p.available = some avail ∧ avail[i]? = some d ∧ d ∈ avail ∧
      p' = { p with last_destination := some d } := by
  unfold DestinationsPlugin.get_random_destination at h
  split at h
  · exact absurd h (by simp)
  · rename_i avail havail
    split at h
    · exact absurd h (by simp)
    · rename_i dest hg
      simp only [Option.some.injEq, Prod.mk.injEq] at h
      obtain ⟨hd, hp'⟩ := h
      subst hd
      exact ⟨avail, havail, hg, List.getElem?_mem hg, hp'.symm⟩

/-- The available list is always a sub-collection of the catalog. -/
theorem available_subset (p : DestinationsPlugin) (avail : List String)
    (h : p.available = some avail) : avail ⊆ p.destinations := by
  unfold DestinationsPlugin.available at h
  split at h
  · cases h; exact fun _ hx => hx
  · rename_i last hl
    split at h
    · split at h
      · cases h; exact List.erase_subset last p.destinations
      · exact absurd h (by simp)
    · cases h; exact fun _ hx => hx

/-- A successful pick returns a member of the catalog and the post-state
keeps the catalog with `last_destination` set to the result. -/
theorem pick_mem_destinations (p : DestinationsPlugin) (i : Nat) (d : String)
    (p' : DestinationsPlugin) (h : p.get_random_destination i = some (d, p')) :
    d ∈ p.destinations ∧ p' = { p with last_destination := some d } := by
  obtain ⟨avail, ha, _, hmem, hp'⟩ := pick_characterisation p i d p' h
  exact ⟨available_subset p avail ha hmem, hp'⟩

/-- Every destination in the hardcoded catalog is a nonempty string. -/
theorem initialDestinations_ne_empty : ∀ d ∈ initialDestinations, d ≠ "" := by decide

/-- The hardcoded catalog has no duplicates. -/
theorem initialDestinations_nodup : initialDestinations.Nodup := by decide

/-- State invariant: every reachable state carries the original catalog,
and `last_destination` is `none` or a catalog member. -/
theorem reachable_invariant (p : DestinationsPlugin) (h : Reachable p) :
    p.destinations = initialDestinations ∧
      (p.last_destination = none ∨
        ∃ d, p.last_destination = some d ∧ d ∈ initialDestinations) := by
  induction h with
  | base => exact ⟨rfl, Or.inl rfl⟩
  | step q i d q' hq hpick ih =>
    obtain ⟨hdest, _⟩ := ih
    obtain ⟨hmem, hq'⟩ := pick_mem_destinations q i d q' hpick
    subst hq'
    exact ⟨hdest, Or.inr ⟨d, rfl, hdest ▸ hmem⟩⟩

/-- Equation: with no previous pick recorded, the available list is the
full catalog. -/
theorem available_of_last_none (p : DestinationsPlugin) (hl : p.last_destination = none) :
    p.available = some p.destinations := by
  unfold DestinationsPlugin.available
  rw [hl]

/-- Equation: with a truthy previous pick that is a catalog member, and a
catalog of more than one element, the available list is the catalog with
the previous pick removed. -/
theorem available_of_last_mem (p : DestinationsPlugin) (last : String)
    (hl : p.last_destination = some last) (hne : last ≠ "")
    (hlen : p.destinations.length > 1) (hmem : last ∈ p.destinations) :
    p.available = some (p.destinations.erase last) := by
  unfold DestinationsPlugin.available
  rw [hl]
  simp only [hne, hlen, hmem, ne_eq, not_false_eq_true, and_self, if_true, if_pos]

/-- In a reachable state the `list.remove` step cannot fail, and the
source's truthiness-guarded available list coincides with the spec's
"set"-guarded eligible set. -/
theorem reachable_available_eq_specEligible (p : DestinationsPlugin) (h : Reachable p) :
    p.available = some (specEligible p) := by
  obtain ⟨hdest, hlast⟩ := reachable_invariant p h
  rcases hlast with hnone | ⟨d, hd, hdmem⟩
  · rw [available_of_last_none p hnone]
    unfold specEligible
    rw [hnone]
  · have hne : d ≠ "" := initialDestinations_ne_empty d hdmem
    have hlen : p.destinations.length > 1 := by rw [hdest]; decide
    have hmem : d ∈ p.destinations := hdest ▸ hdmem
    have h1 : specEligible p = p.destinations.erase d := by
      unfold specEligible
      rw [hd]
      simp [hlen]
    rw [h1, available_of_last_mem p d hd hne hlen hmem]

/-- The object state after the first pick (draw index 0) from the fresh
object: `last_destination` holds the first catalog entry. -/
def stateAfterFirstPick : DestinationsPlugin :=
  { destinations := initialDestinations, last_destination := some "Barcelona, Spain" }

/-- The object state after a second pick with draw index 0. -/
def stateAfterSecondPick : DestinationsPlugin :=
  { destinations := initialDestinations, last_destination := some "Paris, France" }

/-- Claim C1: with the program's catalog (size 10 ≥ 2), for every pair of
consecutive successful calls to `get_random_destination` starting from a
reachable state — whatever the two random draws — the value returned by
the second call differs from the value returned by the immediately
preceding call.  (Nothing is claimed about repeats further back.) -/
theorem no_immediate_repeat (p p₁ p₂ : DestinationsPlugin) (i j : Nat)
    (d₁ d₂ : String) (hr : Reachable p)
    (h₁ : p.get_random_destination i = some (d₁, p₁))
    (h₂ : p₁.get_random_destination j = some (d₂, p₂)) :
    d₂ ≠ d₁ := by
  obtain ⟨hdest, _⟩ := reachable_invariant p hr
  obtain ⟨hmem₁, hp₁⟩ := pick_mem_destinations p i d₁ p₁ h₁
  have hd₁mem : d₁ ∈ initialDestinations := hdest ▸ hmem₁
  have hne : d₁ ≠ "" := initialDestinations_ne_empty d₁ hd₁mem
  subst hp₁
  have hlen : p.destinations.length > 1 := by rw [hdest]; decide
  have havail :
      ({ p with last_destination := some d₁ } : DestinationsPlugin).available =
        some (p.destinations.erase d₁) :=
    available_of_last_mem _ d₁ rfl hne hlen hmem₁
  obtain ⟨avail, ha, hg, hmem₂, _⟩ := pick_characterisation _ j d₂ p₂ h₂
  rw [havail] at ha
  injection ha with ha
  subst ha
  have hnodup : p.destinations.Nodup := hdest ▸ initialDestinations_nodup
  exact ((hnodup.mem_erase_iff).mp hmem₂).1

/-- Witness for C1: the first two picks from the fresh object (both with
draw index 0) return "Barcelona, Spain" then "Paris, France", which
differ. -/
theorem no_immediate_repeat_witness : "Paris, France" ≠ "Barcelona, Spain" :=
  no_immediate_repeat DestinationsPlugin.init stateAfterFirstPick stateAfterSecondPick
    0 0 "Barcelona, Spain" "Paris, France" Reachable.base (by decide) (by decide)

/-- Claim C2: every successful call to `get_random_destination`, in every
state reachable from the freshly constructed object, returns a member of
the original construction-time catalog. -/
theorem pick_returns_catalog_member (p p' : DestinationsPlugin) (i : Nat) (d : String)
    (hr : Reachable p) (h : p.get_random_destination i = some (d, p')) :
    d ∈ initialDestinations := by
  obtain ⟨hdest, _⟩ := reachable_invariant p hr
  exact hdest ▸ (pick_mem_destinations p i d p' h).1

/-- Witness for C2: the first pick from the fresh object returns
"Barcelona, Spain", a catalog member. -/
theorem pick_returns_catalog_member_witness : "Barcelona, Spain" ∈ initialDestinations :=
  pick_returns_catalog_member DestinationsPlugin.init stateAfterFirstPick 0
    "Barcelona, Spain" Reachable.base (by decide)

/-- Claim C4: each successful pick from a reachable state computes the
eligible list exactly as the spec words it (catalog minus the last pick
when it is set and the catalog size exceeds 1, full catalog otherwise),
draws its result from that list at the random index, records the result
in `last_destination`, and returns it. -/
theorem pick_follows_spec_algorithm (p p' : DestinationsPlugin) (i : Nat) (d : String)
    (hr : Reachable p) (h : p.get_random_destination i = some (d, p')) :
    p.available = some (specEligible p) ∧ (specEligible p)[i]? = some d ∧
      d ∈ specEligible p ∧ p' = { p with last_destination := some d } := by
  have he := reachable_available_eq_specEligible p hr
  obtain ⟨avail, ha, hg, hmem, hp'⟩ := pick_characterisation p i d p' h
  rw [he] at ha
  injection ha with ha
  subst ha
  exact ⟨he, hg, hmem, hp'⟩

/-- Witness for C4: the first pick from the fresh object draws entry 0 of
the eligible list, which is the full catalog. -/
theorem pick_follows_spec_algorithm_witness :
    DestinationsPlugin.init.available = some (specEligible DestinationsPlugin.init) ∧
      (specEligible DestinationsPlugin.init)[0]? = some "Barcelona, Spain" ∧
      "Barcelona, Spain" ∈ specEligible DestinationsPlugin.init ∧
      stateAfterFirstPick =
        { DestinationsPlugin.init with last_destination := some "Barcelona, Spain" } :=
  pick_follows_spec_algorithm DestinationsPlugin.init stateAfterFirstPick 0
    "Barcelona, Spain" Reachable.base (by decide)

/-- Claim C5: the picker's mutable state is the single field
`last_destination`: it is `none` immediately after construction, and after
every successful pick it equals the value that pick just returned, the
catalog field being unchanged. -/
theorem last_destination_state (p p' : DestinationsPlugin) (i : Nat) (d : String)
    (h : p.get_random_destination i = some (d, p')) :
    DestinationsPlugin.init.last_destination = none ∧
      p'.last_destination = some d ∧ p'.destinations = p.destinations := by
  obtain ⟨_, hp'⟩ := pick_mem_destinations p i d p' h
  subst hp'
  exact ⟨rfl, rfl, rfl⟩

/-- Witness for C5 at the first pick from the fresh object. -/
theorem last_destination_state_witness :
    DestinationsPlugin.init.last_destination = none ∧
      stateAfterFirstPick.last_destination = some "Barcelona, Spain" ∧
      stateAfterFirstPick.destinations = DestinationsPlugin.init.destinations :=
  last_destination_state DestinationsPlugin.init stateAfterFirstPick 0
    "Barcelona, Spain" (by decide)

/-- Claim C6: from every reachable state the pick operation is total: the
available list is computed without error (the `list.remove` cannot raise
`ValueError`), it is non-empty (so `random.choice` cannot raise
`IndexError`), and every in-range random draw yields a successful call. -/
theorem pick_total (p : DestinationsPlugin) (hr : Reachable p) :
    p.available = some (specEligible p) ∧ specEligible p ≠ [] ∧
      ∀ i, i < (specEligible p).length → (p.get_random_destination i).isSome = true := by
  have he := reachable_available_eq_specEligible p hr
  have hlen : (specEligible p).length > 0 := by
    obtain ⟨hdest, hlast⟩ := reachable_invariant p hr
    rcases hlast with hnone | ⟨d, hd, hdmem⟩
    · unfold specEligible
      rw [hnone, hdest]
      decide
    · have hgt : p.destinations.length > 1 := by rw [hdest]; decide
      have h1 : specEligible p = p.destinations.erase d := by
        unfold specEligible
        rw [hd]
        simp [hgt]
      rw [h1, List.length_erase_of_mem (hdest ▸ hdmem), hdest]
      decide
  refine ⟨he, List.length_pos.mp hlen, fun i hi => ?_⟩
  have hstep : p.get_random_destination i =
      match (specEligible p)[i]? with
      | none => none
      | some destination =>
        some (destination, { p with last_destination := some destination }) := by
    unfold DestinationsPlugin.get_random_destination
    rw [he]
  rw [hstep, List.getElem?_eq_getElem hi]
  rfl

/-- Witness for C6: the very first call on the fresh object with draw
index 0 succeeds. -/
theorem pick_total_witness : (DestinationsPlugin.init.get_random_destination 0).isSome = true :=
  (pick_total DestinationsPlugin.init Reachable.base).2.2 0 (by decide)

/-- Claim C7: a successful pick leaves the catalog unchanged — same
elements in the same order — and the post-state differs from the
pre-state only in `last_destination`. -/
theorem pick_frame (p p' : DestinationsPlugin) (i : Nat) (d : String)
    (h : p.get_random_destination i = some (d, p')) :
    p'.destinations = p.destinations ∧ p' = { p with last_destination := some d } := by
  obtain ⟨_, hp'⟩ := pick_mem_destinations p i d p' h
  subst hp'
  exact ⟨rfl, rfl⟩

/-- Witness for C7 at the first pick from the fresh object. -/
theorem pick_frame_witness :
    stateAfterFirstPick.destinations = DestinationsPlugin.init.destinations ∧
      stateAfterFirstPick =
        { DestinationsPlugin.init with last_destination := some "Barcelona, Spain" } :=
  pick_frame DestinationsPlugin.init stateAfterFirstPick 0 "Barcelona, Spain" (by decide)

/-- Claim C9: in every reachable state `last_destination` is `none` or a
member of the catalog, and consequently the remove step inside the pick
operation cannot fail: the available list is always computed
successfully. -/
theorem last_destination_invariant (p : DestinationsPlugin) (hr : Reachable p) :
    (p.last_destination = none ∨
      ∃ d, p.last_destination = some d ∧ d ∈ p.destinations) ∧
      p.available.isSome = true := by
  obtain ⟨hdest, hlast⟩ := reachable_invariant p hr
  constructor
  · rcases hlast with hnone | ⟨d, hd, hdmem⟩
    · exact Or.inl hnone
    · exact Or.inr ⟨d, hd, hdest ▸ hdmem⟩
  · rw [reachable_available_eq_specEligible p hr]
    rfl

/-- Witness for C9 at the freshly constructed object. -/
theorem last_destination_invariant_witness :
    (DestinationsPlugin.init.last_destination = none ∨
      ∃ d, DestinationsPlugin.init.last_destination = some d ∧
        d ∈ DestinationsPlugin.init.destinations) ∧
      DestinationsPlugin.init.available.isSome = true :=
  last_destination_invariant DestinationsPlugin.init Reachable.base

/-- Claim C10: the exclusion of the previous pick is guarded by Python
truthiness rather than a not-None test: in every state whose
`last_destination` is the empty string, with a catalog of more than one
element, the available list is the full catalog (the empty string is not
excluded), and when the empty string is a catalog member an immediate
repeat of it is possible. -/
theorem empty_string_not_excluded (p : DestinationsPlugin)
    (hlast : p.last_destination = some "") (hlen : p.destinations.length > 1) :
    p.available = some p.destinations ∧
      ("" ∈ p.destinations →
        ∃ i p', p.get_random_destination i = some ("", p')) := by
  have ha : p.available = some p.destinations := by
    unfold DestinationsPlugin.available
    rw [hlast]
    simp
  refine ⟨ha, fun hmem => ?_⟩
  obtain ⟨n, hn⟩ := List.getElem?_of_mem hmem
  refine ⟨n, { p with last_destination := some "" }, ?_⟩
  have hstep : p.get_random_destination n =
      match p.destinations[n]? with
      | none => none
      | some destination =>
        some (destination, { p with last_destination := some destination }) := by
    unfold DestinationsPlugin.get_random_destination
    rw [ha]
  rw [hstep, hn]

/-- A hypothetical picker state holding the empty string as a catalog
member and as the last pick (not reachable with the hardcoded catalog,
which contains no empty string). -/
def twoElementState : DestinationsPlugin :=
  { destinations := ["", "Tokyo, Japan"], last_destination := some "" }

/-- Witness for C10: with catalog `["", "Tokyo, Japan"]` and the empty
string as last pick, nothing is excluded and the empty string can repeat
immediately. -/
theorem empty_string_not_excluded_witness :
    twoElementState.available = some ["", "Tokyo, Japan"] ∧
      ∃ i p', twoElementState.get_random_destination i = some ("", p') := by
  have h := empty_string_not_excluded twoElementState rfl (by decide)
  exact ⟨h.1, h.2 (by decide)⟩
